import Mathlib

/-!
Shallow embedding of the session / registry / dynamic-activation core of the
`mcp-express` server (files `src/core/session-manager.ts` and
`src/core/mcp-server-service.ts`).

The mutable maps of the two classes (`SessionManager.sessions`,
`SessionManager.sessionsWithDynamicTools`, `McpServerService.servers`,
`McpServerService.sessionToolState`, the registration maps) are combined in a
single explicit state record `SMState`; every method becomes a pure function
from that state to a new state (plus its return value).  JavaScript `Map`s
become association lists, `Set`s become lists guarded against duplicates.
Handlers and parameter schemas are opaque values in the original and play no
role in the control flow modelled here, so a registration is reduced to its
name and its `isDynamic` flag; a protocol-handler instance (`McpServer`) is
reduced to the lists of names registered on it plus a creation counter giving
it an identity.  `res.write` / `res.end` on the SSE response are modelled as an
append-only event log.  Wall-clock timestamps (`new Date()`) are passed in as
an explicit `now : Nat` parameter.
-/

namespace McpExpress

/-- Association-list lookup, mirroring `Map.get`. -/
def alookup {α : Type} (k : String) : List (String × α) → Option α
  | [] => none
  | (k', v) :: t => if k' = k then some v else alookup k t

/-- Association-list insert/overwrite, mirroring `Map.set`. -/
def aset {α : Type} (k : String) (v : α) : List (String × α) → List (String × α)
  | [] => [(k, v)]
  | (k', v') :: t => if k' = k then (k, v) :: t else (k', v') :: aset k v t

/-- Association-list removal, mirroring `Map.delete`. -/
def aerase {α : Type} (k : String) (l : List (String × α)) : List (String × α) :=
  l.filter (fun p => !(p.1 == k))

/-- An event written on a session's SSE response stream (`res.write`), or the
stream being ended (`res.end()`). -/
inductive SMEvent where
  | notification (message : String) (timestamp : Nat)
  | progress (stage : String) (percent : Int) (message : String) (timestamp : Nat)
  | complete (success : Bool) (error : Option String) (timestamp : Nat)
  | connEnd
  deriving DecidableEq, Repr

/-- The `lastUpdate` snapshot stored on a `Session`. -/
structure ProgressUpdate where
  stage : String
  percent : Int
  message : String
  timestamp : Nat
  deriving DecidableEq, Repr

/-- `Session` record of `session-manager.ts`. `res` is the optional SSE
response object, modelled as an opaque channel handle. -/
structure Session where
  id : String
  res : Option Nat
  createdAt : Nat
  userId : Option String
  username : Option String
  userRole : Option String
  lastUpdate : Option ProgressUpdate
  deriving DecidableEq, Repr

/-- `SessionOptions` of `session-manager.ts`. -/
structure SessionOptions where
  userId : Option String := none
  username : Option String := none
  userRole : Option String := none
  deriving DecidableEq, Repr

/-- A per-session `McpServer` instance together with its transport
(`ServerConfig` of `mcp-server-service.ts`).  `instanceId` gives the instance
an identity (fresh per construction); the three lists record the names
registered on this instance by `server.tool` / `server.resource` /
`server.prompt`, in call order. -/
structure ServerConfig where
  instanceId : Nat
  tools : List String
  resources : List String
  prompts : List String
  deriving DecidableEq, Repr

/-- `ToolRegistration` of `mcp-server-service.ts`, with the opaque
`paramSchema` and `handler` fields elided. -/
structure ToolRegistration where
  name : String
  isDynamic : Bool
  deriving DecidableEq, Repr

/-- Combined mutable state of one `SessionManager` and its `McpServerService`. -/
structure SMState where
  /-- `SessionManager.sessions` -/
  sessions : List (String × Session)
  /-- `SessionManager.sessionsWithDynamicTools` (a `Set<string>`) -/
  sessionsWithDynamicTools : List String
  /-- `McpServerService.servers` -/
  servers : List (String × ServerConfig)
  /-- `McpServerService.sessionToolState`: per session, the
  `enabledDynamicTools` set (as a duplicate-free list). -/
  sessionToolState : List (String × List String)
  /-- `McpServerService.registeredTools` -/
  registeredTools : List (String × ToolRegistration)
  /-- names in `McpServerService.registeredStringResources` -/
  registeredStringResources : List String
  /-- names in `McpServerService.registeredTemplateResources` -/
  registeredTemplateResources : List String
  /-- names in `McpServerService.registeredPrompts` -/
  registeredPrompts : List String
  /-- fresh-identity counter for newly constructed `McpServer` instances -/
  nextInstanceId : Nat
  /-- append-only log of the events pushed on each session's SSE stream -/
  events : List (String × SMEvent)
  deriving DecidableEq, Repr

/-- The empty initial state (no sessions, no servers, empty registries). -/
def SMState.initial : SMState where
  sessions := []
  sessionsWithDynamicTools := []
  servers := []
  sessionToolState := []
  registeredTools := []
  registeredStringResources := []
  registeredTemplateResources := []
  registeredPrompts := []
  nextInstanceId := 0
  events := []

/-- JavaScript truthiness of an optional string value (`undefined` and `""`
are falsy), as used by `if (options?.userId) ...`. -/
def jsTruthy : Option String → Bool
  | none => false
  | some s => !(s == "")

/-! ### SessionManager: session store -/

/-- `SessionManager.getOrCreateSession(id, res?, options?)`.  Creates the
record when absent; when present, merges `res` and the identity fields, but
only inside the `else if (res)` branch of the original. -/
def getOrCreateSession (id : String) (res : Option Nat)
    (options : Option SessionOptions) (now : Nat) (st : SMState) :
    Session × SMState :=
  match alookup id st.sessions with
  | none =>
    let session : Session :=
      { id := id
        res := res
        createdAt := now
        userId := options.bind (·.userId)
        username := options.bind (·.username)
        userRole := options.bind (·.userRole)
        lastUpdate := none }
    (session, { st with sessions := aset id session st.sessions })
  | some session =>
    match res with
    | some r =>
      let s1 := { session with res := some r }
      let s2 := if jsTruthy (options.bind (·.userId)) then
          { s1 with userId := options.bind (·.userId) } else s1
      let s3 := if jsTruthy (options.bind (·.username)) then
          { s2 with username := options.bind (·.username) } else s2
      let s4 := if jsTruthy (options.bind (·.userRole)) then
          { s3 with userRole := options.bind (·.userRole) } else s3
      (s4, { st with sessions := aset id s4 st.sessions })
    | none => (session, st)

/-- `SessionManager.getSession(id)`. -/
def getSession (id : String) (st : SMState) : Option Session :=
  alookup id st.sessions

/-- `SessionManager.deleteSession(id)`: removes the record and the
"already analyzed" marker. -/
def deleteSession (id : String) (st : SMState) : SMState :=
  { st with
      sessions := aerase id st.sessions
      sessionsWithDynamicTools :=
        st.sessionsWithDynamicTools.filter (fun x => !(x == id)) }

/-! ### SessionManager: push channel -/

/-- `SessionManager.sendNotification(id, message)`: no-op returning `false`
when the session is absent or has no bound response. -/
def sendNotification (id : String) (message : String) (now : Nat)
    (st : SMState) : Bool × SMState :=
  match alookup id st.sessions with
  | none => (false, st)
  | some session =>
    match session.res with
    | none => (false, st)
    | some _ =>
      (true, { st with
          events := st.events ++ [(id, SMEvent.notification message now)] })

/-- `SessionManager.sendProgress(id, stage, percent, message)`: also stores
the `lastUpdate` snapshot on the session record. -/
def sendProgress (id : String) (stage : String) (percent : Int)
    (message : String) (now : Nat) (st : SMState) : Bool × SMState :=
  match alookup id st.sessions with
  | none => (false, st)
  | some session =>
    match session.res with
    | none => (false, st)
    | some _ =>
      let upd : ProgressUpdate :=
        { stage := stage, percent := percent, message := message,
          timestamp := now }
      let session' := { session with lastUpdate := some upd }
      (true, { st with
          sessions := aset id session' st.sessions
          events :=
            st.events ++ [(id, SMEvent.progress stage percent message now)] })

/-- `SessionManager.sendComplete(id, success, error?)`: writes the completion
event, ends the response stream (`res.end()`), and deletes the session. -/
def sendComplete (id : String) (success : Bool) (error : Option String)
    (now : Nat) (st : SMState) : Bool × SMState :=
  match alookup id st.sessions with
  | none => (false, st)
  | some session =>
    match session.res with
    | none => (false, st)
    | some _ =>
      let st1 := { st with
        events := st.events ++
          [(id, SMEvent.complete success error now), (id, SMEvent.connEnd)] }
      (true, deleteSession id st1)

/-! ### McpServerService: registry -/

/-- `McpServerService.registerTool(name, paramSchema, handler, isDynamic)`.
(The parallel registration of non-dynamic tools on the unused
`defaultServer` template is not modelled.) -/
def registerTool (name : String) (isDynamic : Bool) (st : SMState) : SMState :=
  { st with
      registeredTools :=
        aset name { name := name, isDynamic := isDynamic } st.registeredTools }

/-- `McpServerService.registerDynamicTool(name, paramSchema, handler)`. -/
def registerDynamicTool (name : String) (st : SMState) : SMState :=
  registerTool name true st

/-- Boolean membership in a list of strings (`Set.has` / `Array.includes`). -/
def listHas (l : List String) (x : String) : Bool :=
  match l with
  | [] => false
  | y :: t => (y == x) || listHas t x

/-- Whether `name` is registered in `regs` and marked dynamic. -/
def dynReg (regs : List (String × ToolRegistration)) (name : String) : Bool :=
  match alookup name regs with
  | some r => r.isDynamic
  | none => false

/-- Whether `name` is registered and marked dynamic. -/
def isDynamicReg (st : SMState) (name : String) : Bool :=
  dynReg st.registeredTools name

/-- The `enabledDynamicTools` set recorded for a session (empty when the
session has no tool state yet). -/
def enabledOf (sessionId : String) (st : SMState) : List String :=
  (alookup sessionId st.sessionToolState).getD []

/-! ### McpServerService: dynamic enabling -/

/-- The `for (const toolName of toolNames)` loop of
`enableDynamicToolsForSession`: threads the session's server instance, its
`enabledDynamicTools` set and the `toolsAdded` flag.  Unknown names and names
not marked dynamic are skipped with a warning; already-enabled names are
skipped silently; otherwise the tool is registered on the session's server
and recorded as enabled. -/
def enableLoop (regs : List (String × ToolRegistration))
    (toolNames : List String) (cfg : ServerConfig) (enabled : List String)
    (added : Bool) : ServerConfig × List String × Bool :=
  match toolNames with
  | [] => (cfg, enabled, added)
  | toolName :: rest =>
    match alookup toolName regs with
    | none => enableLoop regs rest cfg enabled added
    | some registration =>
      if !registration.isDynamic then
        enableLoop regs rest cfg enabled added
      else if listHas enabled toolName then
        enableLoop regs rest cfg enabled added
      else
        enableLoop regs rest
          { cfg with tools := cfg.tools ++ [registration.name] }
          (enabled ++ [toolName]) true

/-- `McpServerService.enableDynamicToolsForSession(sessionId, toolNames)`:
returns `false` and changes nothing when the session has no server; otherwise
initialises the session's tool state when absent, runs the loop, and returns
whether at least one tool was newly added. -/
def enableDynamicToolsForSession (sessionId : String)
    (toolNames : List String) (st : SMState) : Bool × SMState :=
  match alookup sessionId st.servers with
  | none => (false, st)
  | some serverConfig =>
    let r := enableLoop st.registeredTools toolNames serverConfig
      (enabledOf sessionId st) false
    (r.2.2,
      { st with
          servers := aset sessionId r.1 st.servers
          sessionToolState := aset sessionId r.2.1 st.sessionToolState })

/-! ### McpServerService: instance lifecycle -/

/-- The names of the non-dynamic registered tools, in registration order
(the tools `applyRegistrationsToServer` puts on a fresh instance). -/
def staticRegistrationTools (st : SMState) : List String :=
  (st.registeredTools.filter (fun p => !p.2.isDynamic)).map (fun p => p.2.name)

/-- `McpServerService.applyRegistrationsToServer(server)`: registers every
non-dynamic tool, every resource and every prompt on the instance. -/
def applyRegistrationsToServer (st : SMState) (server : ServerConfig) :
    ServerConfig :=
  { server with
      tools := server.tools ++ staticRegistrationTools st
      resources := server.resources ++ st.registeredStringResources
        ++ st.registeredTemplateResources
      prompts := server.prompts ++ st.registeredPrompts }

/-- `McpServerService.getOrCreateServer(sessionId)`: returns the existing
`ServerConfig` unchanged when present; otherwise constructs a fresh instance,
applies all static registrations to it once, and stores it.  (The transport
construction and `server.connect` are identity-free here; the installed
`onclose` callback is modelled separately as `transportOnClose`.) -/
def getOrCreateServer (sessionId : String) (st : SMState) :
    ServerConfig × SMState :=
  match alookup sessionId st.servers with
  | some existingServer => (existingServer, st)
  | none =>
    let fresh : ServerConfig :=
      { instanceId := st.nextInstanceId, tools := [], resources := [],
        prompts := [] }
    let config := applyRegistrationsToServer st fresh
    (config,
      { st with
          servers := aset sessionId config st.servers
          nextInstanceId := st.nextInstanceId + 1 })

/-- `McpServerService.closeServer(sessionId)`.  `closeSucceeds` says whether
the underlying `server.close()` resolved or threw; the `try/catch/finally`
of the original removes the instance and the session tool state either way,
and the error never escapes (the function is total). -/
def closeServer (sessionId : String) (closeSucceeds : Bool) (st : SMState) :
    SMState :=
  match alookup sessionId st.servers with
  | none => st
  | some _ =>
    let _ := closeSucceeds
    { st with
        servers := aerase sessionId st.servers
        sessionToolState := aerase sessionId st.sessionToolState }

/-- The `transport.onclose` callback installed by `getOrCreateServer`: deletes
the server and the session tool state for `transport.sessionId` (which the
transport's `sessionIdGenerator` fixes to the session id), then runs
`closeServer(sessionId)` as additional cleanup. -/
def transportOnClose (sessionId : String) (closeSucceeds : Bool)
    (st : SMState) : SMState :=
  let st1 := { st with
      servers := aerase sessionId st.servers
      sessionToolState := aerase sessionId st.sessionToolState }
  closeServer sessionId closeSucceeds st1

/-! ### ActivationPolicy (`SessionManager.analyzeMessage`) -/

/-- `SessionManager.documentKeywords`. -/
def documentKeywords : List String :=
  ["document", "file", "text", "analyze", "parse", "extract", "content",
   "read", "summarize", "pdf", "doc", "docx", "txt"]

/-- `SessionManager.documentToolIds`. -/
def documentToolIds : List String :=
  ["summarizeDocument", "countWordsAndCharacters", "detectDocumentFormat"]

/-- `String.prototype.includes(needle)` on character lists. -/
def strIncludes (hay needle : List Char) : Bool :=
  match hay with
  | [] => needle.isEmpty
  | _ :: t => needle.isPrefixOf hay || strIncludes t needle

/-- `message.toLowerCase()` followed by
`documentKeywords.some(k => lowercaseMessage.includes(k))`. -/
def messageHasDocumentKeywords (message : String) : Bool :=
  let lowercaseMessage := message.data.map Char.toLower
  documentKeywords.any (fun kw => strIncludes lowercaseMessage kw.data)

/-- The notification text emitted on activation. -/
def activationMessage : String :=
  "Document analysis tools have been activated based on your query."

/-- `SessionManager.analyzeMessage(sessionId, message)`: returns immediately
when the session is already marked; otherwise, on a keyword match, tries to
enable the document tools and — only when tools were newly enabled — marks
the session and pushes the activation notification. -/
def analyzeMessage (sessionId : String) (message : String) (now : Nat)
    (st : SMState) : SMState :=
  if listHas st.sessionsWithDynamicTools sessionId then st
  else if messageHasDocumentKeywords message then
    let r := enableDynamicToolsForSession sessionId documentToolIds st
    if r.1 then
      let st2 := { r.2 with
        sessionsWithDynamicTools := sessionId :: r.2.sessionsWithDynamicTools }
      (sendNotification sessionId activationMessage now st2).2
    else r.2
  else st

/-! ### Message-content extraction -/

/-- One element of a `content` parts array.  `text` is `some s` exactly when
the part's `text` field is a string (the `typeof part.text === "string"`
check); a missing or non-string field is `none`. -/
structure ContentPart where
  ty : String
  text : Option String
  deriving DecidableEq, Repr

/-- The shape of one message's `content` field. -/
inductive MessageContent where
  /-- `content` is a single string -/
  | str (s : String)
  /-- `content` is an array of typed parts -/
  | parts (l : List ContentPart)
  /-- `content` is a single object carrying a `type` field; `text` as in
  `ContentPart` -/
  | obj (ty : String) (text : Option String)
  /-- any other shape (`null`, number, object without a matching `type`) -/
  | other
  deriving DecidableEq, Repr

/-- One element of `body.params.messages`. -/
structure McpMessage where
  content : MessageContent
  deriving DecidableEq, Repr

/-- A request body as seen by `extractMessageContent`.  `messages = none`
models a body whose `params` or `params.messages` is missing/falsy. -/
inductive RequestBody where
  /-- `!body || typeof body !== "object"` -/
  | notAnObject
  | obj (method : String) (messages : Option (List McpMessage))
  deriving DecidableEq, Repr

/-- The parts-array branch:
`content.filter(p => p.type === "text" && typeof p.text === "string")
  .map(p => p.text).join(" ")`. -/
def extractPartsText (l : List ContentPart) : String :=
  String.intercalate " "
    ((l.filter (fun p => p.ty == "text" && p.text.isSome)).map
      (fun p => p.text.getD ""))

/-- `SessionManager.extractMessageContent(body)`.  Operates on the last
element of `params.messages`; `content.text || ""` in the typed-object branch
collapses a missing text to `""` (modelled by `Option.getD ""`). -/
def extractMessageContent (body : RequestBody) : String :=
  match body with
  | .notAnObject => ""
  | .obj method messages =>
    if method == "generate" then
      match messages with
      | none => ""
      | some msgs =>
        if msgs.length > 0 then
          match msgs.getLast? with
          | none => ""
          | some lastMessage =>
            match lastMessage.content with
            | .str s => s
            | .parts l => extractPartsText l
            | .obj ty text => if ty == "text" then text.getD "" else ""
            | .other => ""
        else ""
    else ""

/-- The POST branch of `SessionManager.handleRequest` up to server creation:
extract the message content, analyze it when non-empty (a truthy string),
then `getOrCreateServer` — analysis runs BEFORE the server exists on the
first request of a fresh session. -/
def handlePostAnalysis (sessionId : String) (body : RequestBody) (now : Nat)
    (st : SMState) : SMState :=
  let messageContent := extractMessageContent body
  let st1 := if messageContent == "" then st
             else analyzeMessage sessionId messageContent now st
  (getOrCreateServer sessionId st1).2

/-! ### Concrete demonstration states

States reached by running the model operations from the empty state, used by
the concrete counterexamples and witnesses below.  The trace mirrors a real
run: boot-time registration of the three dynamic document tools, a client
opening an SSE listen connection (`GET /mcp`: `getOrCreateServer` then
`getOrCreateSession` with the response bound), and — for `droppedState` —
the transport connection closing afterwards. -/

/-- Boot: the three document tools registered as dynamic. -/
def regState : SMState :=
  registerDynamicTool "detectDocumentFormat"
    (registerDynamicTool "countWordsAndCharacters"
      (registerDynamicTool "summarizeDocument" SMState.initial))

/-- After `GET /mcp` for session `"abc"`: a server instance and a session
record with a bound response channel. -/
def listenState : SMState :=
  (getOrCreateSession "abc" (some 0) none 1
    (getOrCreateServer "abc" regState).2).2

/-- After the transport for `"abc"` closed: the server is gone, the session
record survives with its channel still bound. -/
def droppedState : SMState := transportOnClose "abc" true listenState

/-! ### Association-list lemmas -/

theorem alookup_aset_self {α : Type} (k : String) (v : α)
    (l : List (String × α)) : alookup k (aset k v l) = some v := by
  induction l with
  | nil => simp [aset, alookup]
  | cons p t ih =>
    rcases p with ⟨k', v'⟩
    by_cases h : k' = k
    · simp [aset, alookup, h]
    · simp [aset, alookup, h, ih]

theorem alookup_aerase_self {α : Type} (k : String) (l : List (String × α)) :
    alookup k (aerase k l) = none := by
  induction l with
  | nil => rfl
  | cons p t ih =>
    rcases p with ⟨k', v'⟩
    by_cases h : k' = k
    · simpa [aerase, List.filter_cons, h] using ih
    · simpa [aerase, List.filter_cons, h, alookup] using ih

theorem aset_aset_self {α : Type} (k : String) (v : α)
    (l : List (String × α)) : aset k v (aset k v l) = aset k v l := by
  induction l with
  | nil => simp [aset]
  | cons p t ih =>
    rcases p with ⟨k', v'⟩
    by_cases h : k' = k
    · simp [aset, h]
    · simp [aset, h, ih]

theorem listHas_cons (y x : String) (t : List String) :
    listHas (y :: t) x = ((y == x) || listHas t x) := rfl

theorem listHas_append (a b : List String) (x : String) :
    listHas (a ++ b) x = (listHas a x || listHas b x) := by
  induction a with
  | nil => simp [listHas]
  | cons y t ih => simp [listHas_cons, ih, Bool.or_assoc]

/-! ### `enableLoop` characterization -/

/-- Once `toolsAdded` is true it stays true through the loop. -/
theorem enableLoop_added_true (regs : List (String × ToolRegistration))
    (names : List String) (cfg : ServerConfig) (enabled : List String) :
    (enableLoop regs names cfg enabled true).2.2 = true := by
  induction names generalizing cfg enabled with
  | nil => rfl
  | cons toolName rest ih =>
    simp only [enableLoop]
    cases hreg : alookup toolName regs with
    | none => exact ih cfg enabled
    | some registration =>
      by_cases hd : registration.isDynamic = true
      · by_cases he : listHas enabled toolName = true
        · simp [hd, he, ih]
        · simp [hd, he, ih]
      · simp [Bool.not_eq_true] at hd
        simp [hd, ih]

/-- Membership in the enabled set after the loop: a name is enabled afterwards
iff it was enabled before or it occurs in `names` and is registered dynamic. -/
theorem enableLoop_enabled_has (regs : List (String × ToolRegistration))
    (names : List String) (cfg : ServerConfig) (enabled : List String)
    (added : Bool) (n : String) :
    listHas (enableLoop regs names cfg enabled added).2.1 n =
      (listHas enabled n || (listHas names n && dynReg regs n)) := by
  induction names generalizing cfg enabled added with
  | nil => simp [enableLoop, listHas]
  | cons toolName rest ih =>
    simp only [enableLoop]
    cases hreg : alookup toolName regs with
    | none =>
      rw [ih, listHas_cons]
      cases hbn : (toolName == n) with
      | false => simp [hbn]
      | true =>
        have hn := eq_of_beq hbn
        subst hn
        simp [dynReg, hreg]
    | some registration =>
      by_cases hd : registration.isDynamic = true
      · by_cases he : listHas enabled toolName = true
        · simp only [hd, Bool.not_true, Bool.false_eq_true, if_false, he,
            if_true]
          rw [ih, listHas_cons]
          cases hbn : (toolName == n) with
          | false => simp [hbn]
          | true =>
            have hn := eq_of_beq hbn
            subst hn
            simp [he, dynReg, hreg, hd]
        · simp only [hd, Bool.not_true, Bool.false_eq_true, if_false, he,
            if_false]
          rw [ih, listHas_append, listHas_cons]
          cases hbn : (toolName == n) with
          | false => simp [hbn, listHas]
          | true =>
            have hn := eq_of_beq hbn
            subst hn
            simp [listHas, dynReg, hreg, hd]
      · simp only [Bool.not_eq_true] at hd
        simp only [hd, Bool.not_false, if_true]
        rw [ih, listHas_cons]
        cases hbn : (toolName == n) with
        | false => simp [hbn]
        | true =>
          have hn := eq_of_beq hbn
          subst hn
          simp [dynReg, hreg, hd]

/-- The `toolsAdded` result: true iff some name of the list is registered
dynamic and was not already enabled. -/
theorem enableLoop_added (regs : List (String × ToolRegistration))
    (names : List String) (cfg : ServerConfig) (enabled : List String) :
    (enableLoop regs names cfg enabled false).2.2 =
      names.any (fun n => dynReg regs n && !(listHas enabled n)) := by
  induction names generalizing cfg enabled with
  | nil => rfl
  | cons toolName rest ih =>
    simp only [enableLoop, List.any_cons]
    cases hreg : alookup toolName regs with
    | none =>
      rw [ih]
      simp [dynReg, hreg]
    | some registration =>
      by_cases hd : registration.isDynamic = true
      · by_cases he : listHas enabled toolName = true
        · simp only [hd, Bool.not_true, Bool.false_eq_true, if_false, he,
            if_true]
          rw [ih]
          simp [dynReg, hreg, hd, he]
        · simp only [hd, Bool.not_true, Bool.false_eq_true, if_false, he,
            if_false]
          simp only [Bool.not_eq_true] at he
          simp [enableLoop_added_true, dynReg, hreg, hd, he]
      · simp only [Bool.not_eq_true] at hd
        simp only [hd, Bool.not_false, if_true]
        rw [ih]
        simp [dynReg, hreg, hd]

/-- When every dynamic name of the list is already enabled, the loop is the
identity. -/
theorem enableLoop_noop (regs : List (String × ToolRegistration))
    (names : List String) (cfg : ServerConfig) (enabled : List String)
    (added : Bool)
    (h : ∀ n, listHas names n = true → dynReg regs n = true →
      listHas enabled n = true) :
    enableLoop regs names cfg enabled added = (cfg, enabled, added) := by
  induction names with
  | nil => rfl
  | cons toolName rest ih =>
    have hrest : ∀ n, listHas rest n = true → dynReg regs n = true →
        listHas enabled n = true := by
      intro n hn hd
      exact h n (by simp [listHas_cons, hn]) hd
    simp only [enableLoop]
    cases hreg : alookup toolName regs with
    | none => exact ih hrest
    | some registration =>
      by_cases hd : registration.isDynamic = true
      · have he : listHas enabled toolName = true :=
          h toolName (by simp [listHas_cons]) (by simp [dynReg, hreg, hd])
        simp only [hd, Bool.not_true, Bool.false_eq_true, if_false, he,
          if_true]
        exact ih hrest
      · simp only [Bool.not_eq_true] at hd
        simp only [hd, Bool.not_false, if_true]
        exact ih hrest

/-! ### Frame lemmas -/

/-- `enableDynamicToolsForSession` touches only the server map and the
session tool state. -/
theorem enableDynamic_frame (s : String) (names : List String) (st : SMState) :
    (enableDynamicToolsForSession s names st).2.sessions = st.sessions ∧
    (enableDynamicToolsForSession s names st).2.sessionsWithDynamicTools =
      st.sessionsWithDynamicTools ∧
    (enableDynamicToolsForSession s names st).2.events = st.events ∧
    (enableDynamicToolsForSession s names st).2.registeredTools =
      st.registeredTools := by
  unfold enableDynamicToolsForSession
  cases alookup s st.servers <;> simp

/-- `sendNotification` touches only the event log, appending at most the one
notification. -/
theorem sendNotification_frame (id message : String) (now : Nat)
    (st : SMState) :
    (sendNotification id message now st).2.sessionsWithDynamicTools =
      st.sessionsWithDynamicTools ∧
    ((sendNotification id message now st).2.events = st.events ∨
      (sendNotification id message now st).2.events =
        st.events ++ [(id, SMEvent.notification message now)]) := by
  unfold sendNotification
  cases alookup id st.sessions with
  | none => simp
  | some session => cases h : session.res <;> simp [h]

theorem listHas_iff_mem (l : List String) (x : String) :
    listHas l x = true ↔ x ∈ l := by
  induction l with
  | nil => simp [listHas]
  | cons y t ih =>
    rw [listHas_cons, Bool.or_eq_true, beq_iff_eq, ih, List.mem_cons]
    constructor
    · rintro (h | h)
      · exact Or.inl h.symm
      · exact Or.inr h
    · rintro (h | h)
      · exact Or.inl h.symm
      · exact Or.inr h

/-! ### Counting activation notifications (for the at-most-once property) -/

/-- Whether an event is a notification event. -/
def isNotificationEvent : SMEvent → Bool
  | .notification _ _ => true
  | _ => false

/-- Number of notification events pushed to session `s` in an event list. -/
def notesIn (s : String) (evs : List (String × SMEvent)) : Nat :=
  (evs.filter (fun e => e.1 == s && isNotificationEvent e.2)).length

/-- Number of notification events pushed to session `s` so far. -/
def activationNotes (s : String) (st : SMState) : Nat := notesIn s st.events

/-- Potential function: notifications already sent plus one more allowed
while the session is not yet marked analyzed. -/
def notesPotential (s : String) (st : SMState) : Nat :=
  activationNotes s st +
    (if listHas st.sessionsWithDynamicTools s then 0 else 1)

/-- A sequence of `analyzeMessage` calls for one session, each with its
message text and wall-clock time. -/
def analyzeSequence (s : String) (msgs : List (String × Nat))
    (st : SMState) : SMState :=
  match msgs with
  | [] => st
  | p :: rest => analyzeSequence s rest (analyzeMessage s p.1 p.2 st)

theorem notesIn_append (s : String) (a b : List (String × SMEvent)) :
    notesIn s (a ++ b) = notesIn s a + notesIn s b := by
  simp [notesIn, List.filter_append]

theorem notesIn_single_note (s message : String) (now : Nat) :
    notesIn s [(s, SMEvent.notification message now)] = 1 := by
  simp [notesIn, List.filter, isNotificationEvent]

/-- A marked session is skipped: `analyzeMessage` is the identity. -/
theorem analyzeMessage_marked_id (s m : String) (now : Nat) (st : SMState)
    (h : listHas st.sessionsWithDynamicTools s = true) :
    analyzeMessage s m now st = st := by
  unfold analyzeMessage
  simp [h]

/-- One `analyzeMessage` call never increases the potential: it can spend the
single allowance (emitting one notification while marking the session) but
never gains one back. -/
theorem analyzeMessage_potential_le (s m : String) (now : Nat)
    (st : SMState) :
    notesPotential s (analyzeMessage s m now st) ≤ notesPotential s st := by
  unfold analyzeMessage
  by_cases hm : listHas st.sessionsWithDynamicTools s = true
  · simp [hm]
  · simp only [Bool.not_eq_true] at hm
    simp only [hm, Bool.false_eq_true, if_false]
    by_cases hk : messageHasDocumentKeywords m = true
    case neg => simp [hk, Nat.le_refl]
    simp only [hk, if_true]
    obtain ⟨hf1, hf2, hf3, hf4⟩ :=
      enableDynamic_frame s documentToolIds st
    by_cases hb : (enableDynamicToolsForSession s documentToolIds st).1 = true
    · simp only [hb, if_true]
      obtain ⟨hn1, hn2⟩ := sendNotification_frame s activationMessage now
        { (enableDynamicToolsForSession s documentToolIds st).2 with
            sessionsWithDynamicTools :=
              s :: (enableDynamicToolsForSession s documentToolIds
                st).2.sessionsWithDynamicTools }
      have hmarked : listHas
          ((sendNotification s activationMessage now
            { (enableDynamicToolsForSession s documentToolIds st).2 with
                sessionsWithDynamicTools :=
                  s :: (enableDynamicToolsForSession s documentToolIds
                    st).2.sessionsWithDynamicTools
              }).2.sessionsWithDynamicTools) s = true := by
        rw [hn1]
        simp [listHas_cons]
      unfold notesPotential activationNotes
      rw [hmarked]
      simp only [if_true, Nat.add_zero, hm, Bool.false_eq_true, if_false]
      rcases hn2 with hev | hev <;> rw [hev] <;> simp [hf3, notesIn_append,
        notesIn_single_note, Nat.le_succ]
    · simp only [Bool.not_eq_true] at hb
      simp only [hb, Bool.false_eq_true, if_false]
      unfold notesPotential activationNotes
      rw [hf3, hf2]

theorem analyzeSequence_potential_le (s : String)
    (msgs : List (String × Nat)) (st : SMState) :
    notesPotential s (analyzeSequence s msgs st) ≤ notesPotential s st := by
  induction msgs generalizing st with
  | nil => exact Nat.le_refl _
  | cons p rest ih =>
    exact Nat.le_trans (ih (analyzeMessage s p.1 p.2 st))
      (analyzeMessage_potential_le s p.1 p.2 st)

/-- A whole sequence of calls on a marked session is the identity. -/
theorem analyzeSequence_marked_id (s : String) (msgs : List (String × Nat))
    (st : SMState) (h : listHas st.sessionsWithDynamicTools s = true) :
    analyzeSequence s msgs st = st := by
  induction msgs with
  | nil => rfl
  | cons p rest ih =>
    show analyzeSequence s rest (analyzeMessage s p.1 p.2 st) = st
    rw [analyzeMessage_marked_id s p.1 p.2 st h]
    exact ih

/-- `analyzeMessage` on a session with no server instance is a no-op (the
`enableDynamicToolsForSession` call inside returns false without touching
the state). -/
theorem analyzeMessage_no_server (s m : String) (now : Nat) (st : SMState)
    (h : alookup s st.servers = none) : analyzeMessage s m now st = st := by
  unfold analyzeMessage
  by_cases hm : listHas st.sessionsWithDynamicTools s = true
  · simp [hm]
  · simp only [Bool.not_eq_true] at hm
    simp only [hm, Bool.false_eq_true, if_false]
    by_cases hk : messageHasDocumentKeywords m = true
    · simp [hk, enableDynamicToolsForSession, h]
    · simp [hk]

/-- The session record held for `"abc"` in `listenState`. -/
def demoSession : Session :=
  { id := "abc", res := some 0, createdAt := 1, userId := none,
    username := none, userRole := none, lastUpdate := none }

/-! ### Claim theorems -/

/-- **C1.** For every session id `s` whose session record has a bound push
channel, `sendComplete(s, success, error?)` emits the completion event, ends
the underlying connection, and deletes the session record; afterwards
`getSession s` is absent and a subsequent `sendProgress` returns false. The
termination is unconditional in `success` (which is universally
quantified). -/
theorem sendComplete_terminates_session
    (s : String) (success : Bool) (error : Option String) (now : Nat)
    (st : SMState) (sess : Session) (c : Nat)
    (hs : alookup s st.sessions = some sess) (hc : sess.res = some c) :
    (sendComplete s success error now st).1 = true ∧
    (sendComplete s success error now st).2.events =
      st.events ++ [(s, SMEvent.complete success error now),
        (s, SMEvent.connEnd)] ∧
    getSession s (sendComplete s success error now st).2 = none ∧
    ∀ stage percent message now2,
      (sendProgress s stage percent message now2
        (sendComplete s success error now st).2).1 = false := by
  have hred : sendComplete s success error now st =
      (true, deleteSession s
        { st with events := st.events ++
            [(s, SMEvent.complete success error now), (s, SMEvent.connEnd)] }) := by
    unfold sendComplete
    rw [hs]
    simp [hc]
  rw [hred]
  refine ⟨rfl, rfl, ?_, ?_⟩
  · show alookup s (aerase s _) = none
    exact alookup_aerase_self s _
  · intro stage percent message now2
    unfold sendProgress
    rw [show alookup s (deleteSession s _).sessions = none from
      alookup_aerase_self s _]

/-- Witness for C1 at session `"abc"` of `listenState`. -/
theorem sendComplete_terminates_session_witness :
    alookup "abc" listenState.sessions = some demoSession ∧
    demoSession.res = some 0 ∧
    getSession "abc" (sendComplete "abc" true none 7 listenState).2 = none :=
  ⟨by decide, by decide,
    (sendComplete_terminates_session "abc" true none 7 listenState
      demoSession 0 (by decide) (by decide)).2.2.1⟩

/-- **C2, counterexample.** In `listenState` session `"abc"` has both a live
server instance and a session record; after the transport close callback
runs, the session record is still present in the session store, contradicting
the claim that the close callback removes it. -/
theorem transportOnClose_record_survives_cex :
    (alookup "abc" listenState.servers).isSome = true ∧
    (getSession "abc" listenState).isSome = true ∧
    (getSession "abc" (transportOnClose "abc" true listenState)).isSome =
      true := by decide

/-- **C2, amended.** The `transport.onclose` callback removes the server
instance and clears the per-session enabled-dynamic-tool state, but does NOT
remove the session record from the session store (nor the analyzed marker):
`McpServerService` never calls `SessionManager.deleteSession`, so a session
record can outlive its instance. -/
theorem transportOnClose_teardown (s : String) (ok : Bool) (st : SMState) :
    alookup s (transportOnClose s ok st).servers = none ∧
    alookup s (transportOnClose s ok st).sessionToolState = none ∧
    (transportOnClose s ok st).sessions = st.sessions ∧
    (transportOnClose s ok st).sessionsWithDynamicTools =
      st.sessionsWithDynamicTools := by
  have hred : transportOnClose s ok st =
      { st with servers := aerase s st.servers,
                sessionToolState := aerase s st.sessionToolState } := by
    unfold transportOnClose closeServer
    simp [alookup_aerase_self]
  rw [hred]
  exact ⟨alookup_aerase_self s _, alookup_aerase_self s _, rfl, rfl⟩

/-- **C3, counterexample.** A sequence consisting of one message that does
contain a trigger keyword, run against a reachable state (`droppedState`:
the session exists with a bound channel but its server instance is gone, as
after a transport drop — and equally as on the very first POST of a fresh
session, where `handleRequest` analyzes before creating the server), emits
ZERO notifications, refuting "exactly once over the whole sequence". -/
theorem analyze_exactly_once_cex :
    messageHasDocumentKeywords "please summarize this document" = true ∧
    activationNotes "abc"
      (analyzeSequence "abc" [("please summarize this document", 2)]
        droppedState) = 0 := by decide

/-- **C3, amended.** Over any sequence of `analyzeMessage` calls for a
session, the activation notification is emitted AT MOST once (never again
once the session is marked, and at most the single allowance is spent while
unmarked); in particular, on a session already marked analyzed the whole
sequence leaves the state untouched, so no matching message after the first
successful activation emits anything. -/
theorem analyze_notification_at_most_once (s : String)
    (msgs : List (String × Nat)) (st : SMState) :
    activationNotes s (analyzeSequence s msgs st) ≤
      activationNotes s st +
        (if listHas st.sessionsWithDynamicTools s then 0 else 1) ∧
    analyzeSequence s msgs
        { st with sessionsWithDynamicTools :=
            s :: st.sessionsWithDynamicTools } =
      { st with sessionsWithDynamicTools :=
          s :: st.sessionsWithDynamicTools } := by
  constructor
  · exact Nat.le_trans (Nat.le_add_right _ _)
      (analyzeSequence_potential_le s msgs st)
  · exact analyzeSequence_marked_id s msgs _ (by simp [listHas_cons])

/-- **C4, counterexample.** In `droppedState` the message `"document"`
matches a trigger keyword and `enableDynamicToolsForSession` reports no tool
added (no server instance), yet after `analyzeMessage` the session is NOT
marked analyzed — the code marks only inside `if (toolsEnabled)`,
contradicting the claim that the session is marked anyway. -/
theorem analyze_marks_on_enable_failure_cex :
    messageHasDocumentKeywords "document" = true ∧
    (enableDynamicToolsForSession "abc" documentToolIds droppedState).1 =
      false ∧
    listHas (analyzeMessage "abc" "document" 2
      droppedState).sessionsWithDynamicTools "abc" = false := by decide

/-- **C4, amended.** When `analyzeMessage` finds a trigger keyword but
`enableDynamicToolsForSession` reports that nothing was newly added, the
session is NOT marked analyzed: the call leaves exactly the state produced
by the failed enable attempt, with the analyzed-marker set unchanged — so a
later matching message re-attempts activation instead of returning
immediately. -/
theorem analyze_enable_false_no_mark (s m : String) (now : Nat)
    (st : SMState)
    (hm : listHas st.sessionsWithDynamicTools s = false)
    (hk : messageHasDocumentKeywords m = true)
    (hf : (enableDynamicToolsForSession s documentToolIds st).1 = false) :
    analyzeMessage s m now st =
      (enableDynamicToolsForSession s documentToolIds st).2 ∧
    (analyzeMessage s m now st).sessionsWithDynamicTools =
      st.sessionsWithDynamicTools := by
  have h1 : analyzeMessage s m now st =
      (enableDynamicToolsForSession s documentToolIds st).2 := by
    unfold analyzeMessage
    simp [hm, hk, hf]
  refine ⟨h1, ?_⟩
  rw [h1]
  exact (enableDynamic_frame s documentToolIds st).2.1

/-- Witness for the amended C4 at `droppedState`. -/
theorem analyze_enable_false_no_mark_witness :
    listHas droppedState.sessionsWithDynamicTools "abc" = false ∧
    messageHasDocumentKeywords "document" = true ∧
    (enableDynamicToolsForSession "abc" documentToolIds droppedState).1 =
      false ∧
    (analyzeMessage "abc" "document" 2
      droppedState).sessionsWithDynamicTools =
      droppedState.sessionsWithDynamicTools :=
  ⟨by decide, by decide, by decide,
    (analyze_enable_false_no_mark "abc" "document" 2 droppedState
      (by decide) (by decide) (by decide)).2⟩

/-- Overwriting a key with the value it already maps to is the identity. -/
theorem aset_eq_of_lookup {α : Type} (k : String) (v : α)
    (l : List (String × α)) (h : alookup k l = some v) : aset k v l = l := by
  induction l with
  | nil => simp [alookup] at h
  | cons p t ih =>
    rcases p with ⟨k', v'⟩
    by_cases hk : k' = k
    · subst hk
      have h' : v' = v := by simpa [alookup] using h
      simp [aset, h']
    · simp only [alookup, if_neg hk] at h
      simp [aset, hk, ih h]

/-- Reduction of `enableDynamicToolsForSession` when a server exists. -/
theorem enableDynamic_of_lookup (s : String) (names : List String)
    (st : SMState) (c : ServerConfig) (h : alookup s st.servers = some c) :
    enableDynamicToolsForSession s names st =
      ((enableLoop st.registeredTools names c (enabledOf s st) false).2.2,
        { st with
            servers := aset s
              (enableLoop st.registeredTools names c (enabledOf s st)
                false).1 st.servers
            sessionToolState := aset s
              (enableLoop st.registeredTools names c (enabledOf s st)
                false).2.1 st.sessionToolState }) := by
  unfold enableDynamicToolsForSession
  rw [h]

/-- `enableDynamicToolsForSession` is a no-op returning false when every
dynamic name of the list is already enabled and the session's tool state is
already materialised. -/
theorem enableDynamic_noop (s : String) (names : List String) (st : SMState)
    (c : ServerConfig) (h : alookup s st.servers = some c)
    (hall : ∀ n, listHas names n = true →
      dynReg st.registeredTools n = true → listHas (enabledOf s st) n = true)
    (hstate : alookup s st.sessionToolState = some (enabledOf s st)) :
    enableDynamicToolsForSession s names st = (false, st) := by
  rw [enableDynamic_of_lookup s names st c h,
    enableLoop_noop st.registeredTools names c (enabledOf s st) false hall]
  rw [aset_eq_of_lookup s c st.servers h,
    aset_eq_of_lookup s (enabledOf s st) st.sessionToolState hstate]

/-- **C5.** With a live server instance for `s`:
(1) `enableDynamicToolsForSession` returns true iff at least one name of the
list is registered dynamic and not already enabled (unknown and non-dynamic
names are skipped without failing the call, which the membership equation (2)
makes precise: the enabled set afterwards is exactly the old set plus the
registered-dynamic names of the list); and (3) a second identical call
returns false and leaves the state — in particular the enabled set and its
size — completely unchanged. -/
theorem enableDynamic_idempotent_spec (s : String) (names : List String)
    (st : SMState) (cfg0 : ServerConfig)
    (h : alookup s st.servers = some cfg0) :
    ((enableDynamicToolsForSession s names st).1 = true ↔
      ∃ n ∈ names, isDynamicReg st n = true ∧
        listHas (enabledOf s st) n = false) ∧
    (∀ n, listHas (enabledOf s (enableDynamicToolsForSession s names st).2) n =
      (listHas (enabledOf s st) n ||
        (listHas names n && isDynamicReg st n))) ∧
    enableDynamicToolsForSession s names
        (enableDynamicToolsForSession s names st).2 =
      (false, (enableDynamicToolsForSession s names st).2) := by
  have hred : enableDynamicToolsForSession s names st =
      ((enableLoop st.registeredTools names cfg0 (enabledOf s st) false).2.2,
        { st with
            servers := aset s
              (enableLoop st.registeredTools names cfg0 (enabledOf s st)
                false).1 st.servers
            sessionToolState := aset s
              (enableLoop st.registeredTools names cfg0 (enabledOf s st)
                false).2.1 st.sessionToolState }) := by
    unfold enableDynamicToolsForSession
    rw [h]
  have henabled : enabledOf s (enableDynamicToolsForSession s names st).2 =
      (enableLoop st.registeredTools names cfg0 (enabledOf s st) false).2.1 := by
    rw [hred]
    unfold enabledOf
    simp [alookup_aset_self]
  refine ⟨?_, ?_, ?_⟩
  · rw [hred]
    rw [enableLoop_added, List.any_eq_true]
    simp only [isDynamicReg, Bool.and_eq_true, Bool.not_eq_true']
  · intro n
    rw [henabled, enableLoop_enabled_has]
    simp only [isDynamicReg]
  · have hl2 : alookup s (enableDynamicToolsForSession s names st).2.servers =
        some (enableLoop st.registeredTools names cfg0 (enabledOf s st)
          false).1 := by
      rw [hred]
      exact alookup_aset_self s _ _
    have hregs : (enableDynamicToolsForSession s names st).2.registeredTools =
        st.registeredTools := (enableDynamic_frame s names st).2.2.2
    apply enableDynamic_noop s names _ _ hl2
    · intro n hn hd
      rw [hregs] at hd
      rw [henabled, enableLoop_enabled_has]
      simp [hn, hd]
    · rw [henabled, hred]
      exact alookup_aset_self s _ _

/-- Witness for C5 at `listenState` (server instance `⟨0, [], [], []⟩`). -/
theorem enableDynamic_idempotent_spec_witness :
    alookup "abc" listenState.servers =
      some { instanceId := 0, tools := [], resources := [], prompts := [] } ∧
    enableDynamicToolsForSession "abc" documentToolIds
        (enableDynamicToolsForSession "abc" documentToolIds listenState).2 =
      (false,
        (enableDynamicToolsForSession "abc" documentToolIds listenState).2) :=
  ⟨by decide,
    (enableDynamic_idempotent_spec "abc" documentToolIds listenState
      { instanceId := 0, tools := [], resources := [], prompts := [] }
      (by decide)).2.2⟩

/-- An existing instance is returned as is. -/
theorem getOrCreateServer_of_lookup (s : String) (st : SMState)
    (c : ServerConfig) (h : alookup s st.servers = some c) :
    getOrCreateServer s st = (c, st) := by
  unfold getOrCreateServer
  rw [h]

/-- **C6.** Two consecutive `getOrCreateServer` calls with no intervening
close return the same underlying instance and the same state (conjuncts 1–2);
a call on a state already holding an instance for `s` returns it with the
state untouched (conjunct 3); on a state with no instance for `s` the static
registrations are applied to the fresh instance exactly once (conjunct 4 —
and by conjuncts 1–2 the second call does not re-apply them). -/
theorem getOrCreateServer_idempotent (s : String) (st : SMState)
    (cfg : ServerConfig) :
    (getOrCreateServer s (getOrCreateServer s st).2).1 =
      (getOrCreateServer s st).1 ∧
    (getOrCreateServer s (getOrCreateServer s st).2).2 =
      (getOrCreateServer s st).2 ∧
    getOrCreateServer s { st with servers := aset s cfg st.servers } =
      (cfg, { st with servers := aset s cfg st.servers }) ∧
    (getOrCreateServer s { st with servers := aerase s st.servers }).1.tools =
      staticRegistrationTools st := by
  have hpair : getOrCreateServer s (getOrCreateServer s st).2 =
      ((getOrCreateServer s st).1, (getOrCreateServer s st).2) := by
    cases hl : alookup s st.servers with
    | some c =>
      rw [getOrCreateServer_of_lookup s st c hl]
      exact getOrCreateServer_of_lookup s st c hl
    | none =>
      have h1 : getOrCreateServer s st =
          (applyRegistrationsToServer st
            { instanceId := st.nextInstanceId, tools := [], resources := [],
              prompts := [] },
           { st with
               servers := aset s (applyRegistrationsToServer st
                 { instanceId := st.nextInstanceId, tools := [],
                   resources := [], prompts := [] }) st.servers
               nextInstanceId := st.nextInstanceId + 1 }) := by
        unfold getOrCreateServer
        rw [hl]
      rw [h1]
      exact getOrCreateServer_of_lookup s _ _ (alookup_aset_self s _ _)
  refine ⟨by rw [hpair], by rw [hpair], ?_, ?_⟩
  · exact getOrCreateServer_of_lookup s _ cfg (alookup_aset_self s _ _)
  · simp [getOrCreateServer, alookup_aerase_self, applyRegistrationsToServer,
      staticRegistrationTools]

/-- **C7.** For a tracked session, `closeServer` removes the instance and the
per-session dynamic-tool state from the internal maps whether or not the
underlying `server.close()` succeeded (the two outcomes produce identical
states); the model function is total, reflecting that a close error never
propagates to the caller. -/
theorem closeServer_always_cleans (s : String) (st : SMState)
    (cfg : ServerConfig) (h : alookup s st.servers = some cfg) (ok : Bool) :
    alookup s (closeServer s ok st).servers = none ∧
    alookup s (closeServer s ok st).sessionToolState = none ∧
    closeServer s true st = closeServer s false st := by
  have hred : ∀ b : Bool, closeServer s b st =
      { st with servers := aerase s st.servers,
                sessionToolState := aerase s st.sessionToolState } := by
    intro b
    unfold closeServer
    rw [h]
  rw [hred, hred, hred]
  exact ⟨alookup_aerase_self s _, alookup_aerase_self s _, rfl⟩

/-- Witness for C7 at `listenState`. -/
theorem closeServer_always_cleans_witness :
    alookup "abc" listenState.servers =
      some { instanceId := 0, tools := [], resources := [], prompts := [] } ∧
    alookup "abc" (closeServer "abc" false listenState).servers = none :=
  ⟨by decide,
    (closeServer_always_cleans "abc" listenState
      { instanceId := 0, tools := [], resources := [], prompts := [] }
      (by decide) false).1⟩

/-- **C8, counterexample.** `"abc"` exists in `listenState` with no stored
`userId`; calling `getOrCreateSession` with NO channel handle but a supplied
identity returns the record — and leaves the store — completely unchanged,
discarding the supplied `userId`, contradicting "every newly supplied field
is merged ... for every combination of supplied and omitted arguments". -/
theorem getOrCreateSession_no_channel_no_merge_cex :
    alookup "abc" listenState.sessions = some demoSession ∧
    (getOrCreateSession "abc" none
      (some { userId := some "u1", username := some "n1",
              userRole := some "r1" }) 9 listenState).1.userId = none ∧
    (getOrCreateSession "abc" none
      (some { userId := some "u1", username := some "n1",
              userRole := some "r1" }) 9 listenState).2 = listenState := by
  decide

/-- **C8, amended.** `getOrCreateSession` creates a record when absent
(copying the supplied fields); when a record exists, the merge happens ONLY
if a channel handle is supplied: with `res = none` the call returns the
existing record and state unchanged (any supplied identity fields are
dropped), and with `res = some r` the channel is rebound and each identity
field is overwritten exactly when the supplied value is truthy (present and
non-empty), previously set fields being otherwise preserved. -/
theorem getOrCreateSession_merge_spec (id : String) (r : Nat)
    (resOpt : Option Nat) (opts : SessionOptions) (now : Nat) (st : SMState)
    (sess : Session) (h : alookup id st.sessions = some sess) :
    getOrCreateSession id none (some opts) now st = (sess, st) ∧
    ((getOrCreateSession id (some r) (some opts) now st).1.res = some r ∧
     (getOrCreateSession id (some r) (some opts) now st).1.userId =
       (if jsTruthy opts.userId then opts.userId else sess.userId) ∧
     (getOrCreateSession id (some r) (some opts) now st).1.username =
       (if jsTruthy opts.username then opts.username else sess.username) ∧
     (getOrCreateSession id (some r) (some opts) now st).1.userRole =
       (if jsTruthy opts.userRole then opts.userRole else sess.userRole) ∧
     (getOrCreateSession id (some r) (some opts) now st).1.createdAt =
       sess.createdAt ∧
     (getOrCreateSession id (some r) (some opts) now st).1.lastUpdate =
       sess.lastUpdate ∧
     getSession id (getOrCreateSession id (some r) (some opts) now st).2 =
       some (getOrCreateSession id (some r) (some opts) now st).1) ∧
    (getOrCreateSession id resOpt (some opts) now
        { st with sessions := aerase id st.sessions }).1 =
      { id := id, res := resOpt, createdAt := now, userId := opts.userId,
        username := opts.username, userRole := opts.userRole,
        lastUpdate := none } := by
  refine ⟨?_, ?_, ?_⟩
  · unfold getOrCreateSession
    rw [h]
  · unfold getOrCreateSession
    rw [h]
    by_cases h1 : jsTruthy opts.userId = true <;>
      by_cases h2 : jsTruthy opts.username = true <;>
        by_cases h3 : jsTruthy opts.userRole = true <;>
          simp [h1, h2, h3, getSession, alookup_aset_self]
  · unfold getOrCreateSession
    rw [show alookup id (aerase id st.sessions) = none from
      alookup_aerase_self id _]
    rfl

/-- Witness for the amended C8 at `listenState`. -/
theorem getOrCreateSession_merge_spec_witness :
    alookup "abc" listenState.sessions = some demoSession ∧
    getOrCreateSession "abc" none
        (some { userId := some "u1", username := none, userRole := none }) 9
        listenState = (demoSession, listenState) :=
  ⟨by decide,
    (getOrCreateSession_merge_spec "abc" 0 none
      { userId := some "u1", username := none, userRole := none } 9
      listenState demoSession (by decide)).1⟩

/-- `extractMessageContent` looks only at the last element of the messages
array. -/
theorem extractMessageContent_last (pre : List McpMessage) (m : McpMessage) :
    extractMessageContent (.obj "generate" (some (pre ++ [m]))) =
      (match m.content with
       | .str s => s
       | .parts l => extractPartsText l
       | .obj ty text => if ty == "text" then text.getD "" else ""
       | .other => "") := by
  unfold extractMessageContent
  simp [List.getLast?_concat]

/-- **C9.** `extractMessageContent` tolerates the heterogeneous content
shapes of the (last) message of a `generate` envelope: a plain string yields
itself; a parts array yields the space-joined texts of its string-texted
`"text"` parts; a single `"text"`-typed object yields its text (empty when
missing); any other content shape, a non-object body, a missing messages
array, an empty messages array, or a non-`generate` method all yield `""`
(which makes the activation policy a no-op in `handleRequest`). -/
theorem extractMessageContent_shapes (method : String)
    (msgs : Option (List McpMessage)) (pre : List McpMessage) (s : String)
    (l : List ContentPart) (ty : String) (txt : Option String) :
    extractMessageContent (.obj "generate" (some (pre ++
        [{ content := .str s }]))) = s ∧
    extractMessageContent (.obj "generate" (some (pre ++
        [{ content := .parts l }]))) =
      String.intercalate " "
        ((l.filter (fun p => p.ty == "text" && p.text.isSome)).map
          (fun p => p.text.getD "")) ∧
    extractMessageContent (.obj "generate" (some (pre ++
        [{ content := .obj ty txt }]))) =
      (if ty == "text" then txt.getD "" else "") ∧
    extractMessageContent (.obj "generate" (some (pre ++
        [{ content := .other }]))) = "" ∧
    extractMessageContent .notAnObject = "" ∧
    extractMessageContent (.obj method none) = "" ∧
    extractMessageContent (.obj "generate" (some [])) = "" ∧
    extractMessageContent (.obj method msgs) =
      (if method == "generate"
       then extractMessageContent (.obj "generate" msgs) else "") := by
  refine ⟨?_, ?_, ?_, ?_, rfl, ?_, rfl, ?_⟩
  · rw [extractMessageContent_last]
  · rw [extractMessageContent_last]
    rfl
  · rw [extractMessageContent_last]
  · rw [extractMessageContent_last]
  · unfold extractMessageContent
    cases hm : (method == "generate") <;> simp [hm]
  · cases hm : (method == "generate") with
    | true =>
      have := eq_of_beq hm
      subst this
      simp
    | false =>
      unfold extractMessageContent
      simp [hm]

/-- **C10.** When session `s` has no live server instance,
`enableDynamicToolsForSession` returns false and leaves the state completely
unchanged (no tool state is created, nothing is registered), for every list
of names; and because the POST branch of `handleRequest` analyzes the
message BEFORE `getOrCreateServer`, on such a state the whole analysis phase
is inert: `handlePostAnalysis` reduces to just the server creation. -/
theorem enableDynamic_requires_server (s : String) (names : List String)
    (body : RequestBody) (now : Nat) (st : SMState)
    (h : alookup s st.servers = none) :
    enableDynamicToolsForSession s names st = (false, st) ∧
    handlePostAnalysis s body now st = (getOrCreateServer s st).2 := by
  constructor
  · unfold enableDynamicToolsForSession
    rw [h]
  · unfold handlePostAnalysis
    by_cases hc : (extractMessageContent body == "") = true
    · simp [hc]
    · simp only [Bool.not_eq_true] at hc
      simp only [hc, Bool.false_eq_true, if_false,
        analyzeMessage_no_server s (extractMessageContent body) now st h]

/-- Witness for C10 at `droppedState` (the session's server is gone). -/
theorem enableDynamic_requires_server_witness :
    alookup "abc" droppedState.servers = none ∧
    enableDynamicToolsForSession "abc" documentToolIds droppedState =
      (false, droppedState) :=
  ⟨by decide,
    (enableDynamic_requires_server "abc" documentToolIds
      RequestBody.notAnObject 0 droppedState (by decide)).1⟩

end McpExpress
